import Mathlib

/-!
Verification development for the quantum-tunneling simulation core of the
physics-tutorial repository (frontend/src/simulations/QuantumTunneling).

The TypeScript source is shallowly embedded: JavaScript numbers are modelled
as real numbers, the per-frame callbacks as explicit step functions on state
records, and `Math.random()` draws as explicit real-valued parameters.
Definitions are transcribed from the source files `hooks/useTunneling.ts`,
`Particles.tsx`, `WaveVisualization.tsx` and `index.tsx`.
-/

namespace PhysicsTutorial

noncomputable section

open Classical

/-! ## Tunneling Physics Model (hooks/useTunneling.ts) -/

/-- Result record of the physics hook `useTunneling` (fields `probability`,
`reflectionProbability`, `kappa`, `k`, `isClassical`); the closures
`willTunnel` and `getEvanescentDecay` are modelled as separate functions. -/
structure TunnelingPhysics where
  probability : ℝ
  reflectionProbability : ℝ
  kappa : ℝ
  k : ℝ
  isClassical : Prop

/-- Embedding of the body of `useTunneling(energy, barrierHeight,
barrierWidth, particleMass)`: `isClassical = energy >= barrierHeight`,
`hbar2_2m = 0.0381 / particleMass`, `k = sqrt(energy / hbar2_2m)`; `kappa`
and `probability` keep their initial values `0` and `1` in the classical
case and are otherwise overwritten by `sqrt((barrierHeight - energy) /
hbar2_2m)` and the clamped `exp(-2 * kappa * barrierWidth)`. -/
def useTunneling (energy barrierHeight barrierWidth particleMass : ℝ) :
    TunnelingPhysics :=
  let isClassical := energy ≥ barrierHeight
  let hbar2_2m := 0.0381 / particleMass
  let k := Real.sqrt (energy / hbar2_2m)
  let kappa := if isClassical then 0 else
    Real.sqrt ((barrierHeight - energy) / hbar2_2m)
  let probability := if isClassical then 1 else
    max 0 (min 1 (Real.exp (-2 * kappa * barrierWidth)))
  { probability := probability
    reflectionProbability := 1 - probability
    kappa := kappa
    k := k
    isClassical := isClassical }

/-- Embedding of the closure `willTunnel()` returned by `useTunneling`; the
uniform `Math.random()` draw is passed explicitly. -/
def willTunnelDraw (ph : TunnelingPhysics) (draw : ℝ) : Bool :=
  if ph.isClassical then true else decide (draw < ph.probability)

/-- Embedding of the closure `getEvanescentDecay(progress)` returned by
`useTunneling(energy, barrierHeight, barrierWidth, particleMass)`: `1` when
`isClassical || kappa === 0`, else `exp(-kappa * progress * barrierWidth)`. -/
def getEvanescentDecay (energy barrierHeight barrierWidth particleMass : ℝ)
    (progress : ℝ) : ℝ :=
  let ph := useTunneling energy barrierHeight barrierWidth particleMass
  if ph.isClassical ∨ ph.kappa = 0 then 1
  else Real.exp (-ph.kappa * progress * barrierWidth)

/-- Embedding of the standalone `calculateTunnelingProbability(energy,
barrierHeight, barrierWidth, particleMass)` of `hooks/useTunneling.ts`. -/
def calculateTunnelingProbability
    (energy barrierHeight barrierWidth particleMass : ℝ) : ℝ :=
  if energy ≥ barrierHeight then 1
  else
    let hbar2_2m := 0.0381 / particleMass
    let kappa := Real.sqrt ((barrierHeight - energy) / hbar2_2m)
    let T := Real.exp (-2 * kappa * barrierWidth)
    max 0 (min 1 T)

/-! ## Statistics Aggregator (index.tsx: QuantumTunneling component) -/

/-- The `TunnelingStats` record of `index.tsx`: `totalParticles`, `tunneled`,
`reflected` counters plus the theoretical and experimental probabilities. -/
structure TunnelingStats where
  totalParticles : ℕ
  tunneled : ℕ
  reflected : ℕ
  tunnelingProbability : ℝ
  experimentalProbability : ℝ

/-- Embedding of `createEmptyStats()`: every field zero. -/
def createEmptyStats : TunnelingStats :=
  { totalParticles := 0
    tunneled := 0
    reflected := 0
    tunnelingProbability := 0
    experimentalProbability := 0 }

/-- Embedding of `handleParticleTunneled`: increments `tunneled` and
`totalParticles` and sets `experimentalProbability = newTunneled /
newTotal`. -/
def handleParticleTunneled (s : TunnelingStats) : TunnelingStats :=
  let newTunneled := s.tunneled + 1
  let newTotal := s.totalParticles + 1
  { s with
    totalParticles := newTotal
    tunneled := newTunneled
    experimentalProbability := (newTunneled : ℝ) / (newTotal : ℝ) }

/-- Embedding of `handleParticleReflected`: increments `reflected` and
`totalParticles` and sets `experimentalProbability = prev.tunneled /
newTotal` (the tunneled counter is unchanged in this path). -/
def handleParticleReflected (s : TunnelingStats) : TunnelingStats :=
  let newTotal := s.totalParticles + 1
  { s with
    totalParticles := newTotal
    reflected := s.reflected + 1
    experimentalProbability := (s.tunneled : ℝ) / (newTotal : ℝ) }

/-- Embedding of the stats-reset effect of `index.tsx`: fresh empty stats
whose `tunnelingProbability` is the current theoretical value `theoreticalT`. -/
def resetStats (theoreticalT : ℝ) : TunnelingStats :=
  { createEmptyStats with tunnelingProbability := theoreticalT }

/-- The events that mutate the statistics state: the two record callbacks
and the parameter-change reset. -/
inductive StatsEvent
  | tunneled
  | reflected
  | reset (theoreticalT : ℝ)

/-- One statistics state transition per event. -/
def applyStatsEvent (s : TunnelingStats) : StatsEvent → TunnelingStats
  | StatsEvent.tunneled => handleParticleTunneled s
  | StatsEvent.reflected => handleParticleReflected s
  | StatsEvent.reset T => resetStats T

/-- The statistics state reached from the initial empty stats after a
sequence of events. -/
def runStats (events : List StatsEvent) : TunnelingStats :=
  events.foldl applyStatsEvent createEmptyStats

/-- The aggregator invariant: the two outcome counters sum to the total, and
the experimental probability is `tunneled / totalParticles` (zero when the
total is zero). -/
def statsInvariant (s : TunnelingStats) : Prop :=
  s.tunneled + s.reflected = s.totalParticles ∧
  s.experimentalProbability =
    (if s.totalParticles = 0 then 0 else
      (s.tunneled : ℝ) / (s.totalParticles : ℝ))

/-! ## Particle Lifecycle Engine (Particles.tsx)

The `Particles` component's mutable refs are embedded as explicit state.
Rendering-only data tied to each particle (mesh/glow objects, colors, the
lateral z jitter, the trail point buffer and spawn timestamp) is omitted:
none of it feeds back into position, phase, callback or removal logic.
The per-frame `useFrame` callback becomes `engineFrame`, with `Date.now()`,
the frame delta and the two `Math.random()` draws passed explicitly. -/

/-- The four particle phases of `Particles.tsx`. -/
inductive Phase
  | incident
  | barrier
  | transmitted
  | reflected
  deriving DecidableEq

/-- The state of one particle that feeds the physics/lifecycle logic:
position `x`, current `phase`, the outcome `willTunnel` committed at spawn,
the per-particle `speed`, the detector-hit bookkeeping `hitFlashDone` /
`hitTime`, and the mesh material `opacity` (drives removal). -/
structure Particle where
  x : ℝ
  phase : Phase
  willTunnel : Bool
  speed : ℝ
  hitFlashDone : Bool
  hitTime : ℝ
  opacity : ℝ

/-- The constant `MAX_PARTICLES = 80` of `Particles.tsx`. -/
def MAX_PARTICLES : ℕ := 80

/-- The constant `HIT_FLASH_DURATION = 0.1` of `Particles.tsx`. -/
def HIT_FLASH_DURATION : ℝ := 0.1

/-- The props and derived constants the `Particles` component reads in its
frame callback: the physics parameters, spawn `intensity`, the `timeScale`
(`0.25` in slow motion, else `1`), and the scene x coordinates. -/
structure EngineConfig where
  energy : ℝ
  barrierHeight : ℝ
  barrierWidth : ℝ
  intensity : ℝ
  timeScale : ℝ
  barrierX : ℝ
  sourceX : ℝ
  targetX : ℝ

/-- Derived `barrierLeft = barrierX - barrierWidth / 2` of `Particles.tsx`. -/
def EngineConfig.barrierLeft (cfg : EngineConfig) : ℝ :=
  cfg.barrierX - cfg.barrierWidth / 2

/-- Derived `barrierRight = barrierX + barrierWidth / 2` of `Particles.tsx`. -/
def EngineConfig.barrierRight (cfg : EngineConfig) : ℝ :=
  cfg.barrierX + cfg.barrierWidth / 2

/-- The physics record the `Particles` component obtains from
`useTunneling(energy, barrierHeight, barrierWidth)` (mass defaulted to 1). -/
def EngineConfig.physics (cfg : EngineConfig) : TunnelingPhysics :=
  useTunneling cfg.energy cfg.barrierHeight cfg.barrierWidth 1

/-- Embedding of `spawnParticle()`: a no-op at the particle cap, otherwise
appends a fresh incident particle with outcome `willTunnel = isClassical ||
drawTunnel < probability` and `speed = 0.06 + drawSpeed * 0.02`, starting at
`sourceX + 0.5` with default (opaque) material. -/
def spawnParticle (cfg : EngineConfig) (drawTunnel drawSpeed : ℝ)
    (particles : List Particle) : List Particle :=
  if particles.length ≥ MAX_PARTICLES then particles
  else
    particles ++
      [{ x := cfg.sourceX + 0.5
         phase := Phase.incident
         willTunnel := decide (cfg.physics.isClassical ∨
           drawTunnel < cfg.physics.probability)
         speed := 0.06 + drawSpeed * 0.02
         hitFlashDone := false
         hitTime := 0
         opacity := 1 }]

/-- What one particle's per-frame update reports back: whether
`onParticleReflected` fired, whether `onParticleTunneled` fired, and whether
the particle was pushed onto `toRemove`. -/
structure FrameEvents where
  reflectedFired : Bool
  tunneledFired : Bool
  remove : Bool

/-- A frame update step that fires no callback and removes nothing. -/
def FrameEvents.none : FrameEvents :=
  { reflectedFired := false, tunneledFired := false, remove := false }

/-- Embedding of the per-particle body of the `useFrame` callback of
`Particles.tsx` (with `dt = delta * timeScale`):
 - incident: `x += speed * timeScale`; on reaching `barrierLeft` branch on
   `willTunnel` into the barrier phase or the reflected phase (firing
   `onParticleReflected`);
 - barrier: `x += speed * timeScale * 0.7`, opacity modulated by
   `getEvanescentDecay(progress)`; on reaching `barrierRight` become
   transmitted with opacity restored to 1;
 - transmitted: `x += speed * timeScale`; on reaching `targetX` fire
   `onParticleTunneled` once (guarded by `hitFlashDone`), then accumulate
   `hitTime += dt` and after `HIT_FLASH_DURATION` fade `opacity -= dt * 4`,
   marking for removal once opacity reaches 0;
 - reflected: `x -= speed * timeScale`, fading toward `sourceX`, marked for
   removal past `sourceX - 2`. -/
def updateParticle (cfg : EngineConfig) (delta : ℝ) (p : Particle) :
    Particle × FrameEvents :=
  let timeScale := cfg.timeScale
  let dt := delta * timeScale
  match p.phase with
  | Phase.incident =>
    let x := p.x + p.speed * timeScale
    if x ≥ cfg.barrierLeft then
      if p.willTunnel then
        ({ p with x := x, phase := Phase.barrier }, FrameEvents.none)
      else
        ({ p with x := x, phase := Phase.reflected },
         { FrameEvents.none with reflectedFired := true })
    else
      ({ p with x := x }, FrameEvents.none)
  | Phase.barrier =>
    let x := p.x + p.speed * timeScale * 0.7
    let progress := (x - cfg.barrierLeft) / cfg.barrierWidth
    let decay := getEvanescentDecay cfg.energy cfg.barrierHeight
      cfg.barrierWidth 1 progress
    if x ≥ cfg.barrierRight then
      ({ p with x := x, phase := Phase.transmitted, opacity := 1 },
       FrameEvents.none)
    else
      ({ p with x := x, opacity := 0.5 + 0.5 * decay }, FrameEvents.none)
  | Phase.transmitted =>
    let x := p.x + p.speed * timeScale
    if x ≥ cfg.targetX then
      let fired := !p.hitFlashDone
      let p1 := if p.hitFlashDone then { p with x := x }
        else { p with x := x, hitFlashDone := true, hitTime := 0 }
      let p2 := { p1 with hitTime := p1.hitTime + dt }
      if p2.hitTime > HIT_FLASH_DURATION then
        let p3 := { p2 with opacity := p2.opacity - dt * 4 }
        if p3.opacity ≤ 0 then
          (p3, { reflectedFired := false, tunneledFired := fired,
                 remove := true })
        else
          (p3, { reflectedFired := false, tunneledFired := fired,
                 remove := false })
      else
        (p2, { reflectedFired := false, tunneledFired := fired,
               remove := false })
    else
      ({ p with x := x }, FrameEvents.none)
  | Phase.reflected =>
    let x := p.x - p.speed * timeScale
    let fadeProgress := max 0 ((cfg.sourceX - x) / 3)
    let p1 := { p with x := x, opacity := 1 - fadeProgress }
    if x ≤ cfg.sourceX - 2 then
      (p1, { FrameEvents.none with remove := true })
    else
      (p1, FrameEvents.none)

/-- The engine's mutable refs: the live particle list (`particlesRef`) and
the last spawn-attempt timestamp (`lastSpawnRef`, milliseconds). -/
structure EngineState where
  particles : List Particle
  lastSpawn : ℝ

/-- The external inputs one frame consumes: the `Date.now()` timestamp, the
frame `delta` (seconds), and the spawn's two `Math.random()` draws. -/
structure FrameInput where
  now : ℝ
  delta : ℝ
  drawTunnel : ℝ
  drawSpeed : ℝ

/-- Embedding of one whole `useFrame` callback of `Particles.tsx`: the spawn
gate (`now - lastSpawn > 1000 / intensity`, with `lastSpawn := now` on every
attempt, admitted or dropped), then every particle updated, then the
particles flagged for removal filtered out (update-then-compact). -/
def engineFrame (cfg : EngineConfig) (input : FrameInput)
    (st : EngineState) : EngineState :=
  let st1 := if input.now - st.lastSpawn > 1000 / cfg.intensity then
      { particles := spawnParticle cfg input.drawTunnel input.drawSpeed
          st.particles
        lastSpawn := input.now }
    else st
  let updated := st1.particles.map (updateParticle cfg input.delta)
  { particles := (updated.filter (fun q => q.2.remove = false)).map Prod.fst
    lastSpawn := st1.lastSpawn }

/-- The engine state on mount: no particles, `lastSpawnRef` initialized 0. -/
def initialEngineState : EngineState :=
  { particles := [], lastSpawn := 0 }

/-- The engine state after a sequence of frames from the mount state. -/
def runEngine (cfg : EngineConfig) (inputs : List FrameInput) : EngineState :=
  inputs.foldl (fun st input => engineFrame cfg input st) initialEngineState

/-- The events a particle emits along a run: one `FrameEvents` record per
frame, each computed by `updateParticle` on the evolving particle state. -/
def particleTrace (cfg : EngineConfig) (p : Particle) :
    List ℝ → List FrameEvents
  | [] => []
  | d :: ds =>
    let step := updateParticle cfg d p
    step.2 :: particleTrace cfg step.1 ds

/-! ## Parameter-change effects (index.tsx and Particles.tsx) -/

/-- The simulation parameters the `QuantumTunneling` component consumes
(display toggles omitted: they feed no physics, stats or lifecycle logic). -/
structure TunnelingParams where
  particleEnergy : ℝ
  barrierHeight : ℝ
  barrierWidth : ℝ
  intensity : ℝ

/-- Embedding of the two parameter-driven effects: the stats-reset effect of
`index.tsx` (fires when the (E, V0, L) triple differs from `prevRef`,
replacing the stats by empty ones carrying the current theoretical
probability) and the particle-discard effect of `Particles.tsx` (its
dependency array is exactly `[energy, barrierHeight, barrierWidth]`). -/
def onParamsChange (prev next : TunnelingParams) (stats : TunnelingStats)
    (particles : List Particle) : TunnelingStats × List Particle :=
  let tripleChanged := prev.particleEnergy ≠ next.particleEnergy ∨
    prev.barrierHeight ≠ next.barrierHeight ∨
    prev.barrierWidth ≠ next.barrierWidth
  let stats1 := if tripleChanged then
      resetStats (calculateTunnelingProbability next.particleEnergy
        next.barrierHeight next.barrierWidth 1)
    else stats
  let particles1 := if tripleChanged then [] else particles
  (stats1, particles1)

/-! ## Wave Overlay Model (WaveVisualization.tsx) -/

/-- The state of the `WaveVisualization` component: the time phase
accumulator `timeRef`, plus the memoization cell of its `useMemo` call — the
captured time value `memoTime` and the dependency snapshot `memoDeps`
(the (energy, barrierHeight, barrierWidth) triple; the remaining entries of
the dependency array are functions of it and of constant props). -/
structure WaveVizState where
  timeAccum : ℝ
  memoTime : ℝ
  memoDeps : ℝ × ℝ × ℝ

/-- The wave overlay state on mount: time 0, curve points computed at time 0
for the mount-time parameters. -/
def initialWaveVizState (deps : ℝ × ℝ × ℝ) : WaveVizState :=
  { timeAccum := 0, memoTime := 0, memoDeps := deps }

/-- Embedding of one frame of `WaveVisualization.tsx`: the `useFrame`
callback advances `timeRef.current += delta * 3`; the `useMemo` recomputes
the four point lists — capturing the current `timeRef.current` — only when
its dependency snapshot changed, since `timeRef.current` is not in its
dependency array. -/
def waveVizFrame (deps : ℝ × ℝ × ℝ) (delta : ℝ) (s : WaveVizState) :
    WaveVizState :=
  let t := s.timeAccum + delta * 3
  if deps = s.memoDeps then
    { timeAccum := t, memoTime := s.memoTime, memoDeps := s.memoDeps }
  else
    { timeAccum := t, memoTime := t, memoDeps := deps }

/-- Embedding of one evanescent-curve sample of `WaveVisualization.tsx`: at
abscissa `x` inside the barrier the emitted point's height is
`scaledEnergy + amplitude * exp(-kappa * (x - barrierLeft)) * sin(-time)`
with `amplitude = 0.5`, `scaledEnergy = energy / 2` and `kappa` from
`useTunneling(energy, barrierHeight, barrierWidth)`. -/
def evanescentY (energy barrierHeight barrierWidth barrierX time x : ℝ) : ℝ :=
  let ph := useTunneling energy barrierHeight barrierWidth 1
  let scaledEnergy := energy / 2
  let amplitude := (0.5 : ℝ)
  let barrierLeft := barrierX - barrierWidth / 2
  scaledEnergy + amplitude * Real.exp (-ph.kappa * (x - barrierLeft)) *
    Real.sin (-time)

/-- The per-step phase relation of the particle state machine: stay put, or
take one of the forward edges Incident → InBarrier, Incident → Reflected,
InBarrier → Transmitted. -/
def phaseStepOK : Phase → Phase → Prop
  | Phase.incident, Phase.barrier => True
  | Phase.incident, Phase.reflected => True
  | Phase.barrier, Phase.transmitted => True
  | a, b => a = b

/-- The particle state reached after a sequence of frame deltas. -/
def runParticleState (cfg : EngineConfig) (p : Particle) (ds : List ℝ) :
    Particle :=
  ds.foldl (fun q d => (updateParticle cfg d q).1) p

/-- A concrete engine configuration at the repository's default parameters:
E = 5 eV, V0 = 8 eV, L = 1.5 nm, intensity 25, normal speed, and the scene
constants `BARRIER_X = 0`, `SOURCE_X = -8`, `TARGET_X = 8` of `index.tsx`. -/
def testConfig : EngineConfig :=
  { energy := 5, barrierHeight := 8, barrierWidth := 1.5, intensity := 25
    timeScale := 1, barrierX := 0, sourceX := -8, targetX := 8 }

/-- A concrete incident particle far from the barrier. -/
def probeParticle : Particle :=
  { x := -5, phase := Phase.incident, willTunnel := true, speed := 0.06
    hitFlashDone := false, hitTime := 0, opacity := 1 }

/-- A concrete incident particle one step short of the barrier edge. -/
def boundaryParticle : Particle :=
  { x := -0.8, phase := Phase.incident, willTunnel := true, speed := 0.06
    hitFlashDone := false, hitTime := 0, opacity := 1 }

/-- A concrete transmitted particle past the detector, already in its
fade-out (hit flash done, opacity almost gone). -/
def fadingParticle : Particle :=
  { x := 8, phase := Phase.transmitted, willTunnel := true, speed := 0.06
    hitFlashDone := true, hitTime := 5, opacity := 0.1 }

/-! ## Theorems -/

/-- C2: the physics model computes `isClassical = (E ≥ V0)`; if `E ≥ V0`
then `T = 1` and `κ = 0`; otherwise `κ = sqrt((V0 − E) / C)` and
`T = clamp(exp(−2·κ·L), 0, 1)` with `C = 0.0381 / mass`; the reflection
probability is `1 − T`; and the tie `E = V0` is classical. -/
theorem useTunneling_formula (E V0 L m : ℝ) :
    ((useTunneling E V0 L m).isClassical ↔ E ≥ V0) ∧
    (E ≥ V0 → (useTunneling E V0 L m).probability = 1 ∧
      (useTunneling E V0 L m).kappa = 0) ∧
    (¬ E ≥ V0 →
      (useTunneling E V0 L m).kappa = Real.sqrt ((V0 - E) / (0.0381 / m)) ∧
      (useTunneling E V0 L m).probability =
        max 0 (min 1 (Real.exp (-2 * (useTunneling E V0 L m).kappa * L)))) ∧
    (useTunneling E V0 L m).reflectionProbability =
      1 - (useTunneling E V0 L m).probability ∧
    (E = V0 → (useTunneling E V0 L m).isClassical) := by
  by_cases h : E ≥ V0 <;> simp [useTunneling, h]
  exact fun hEV => absurd (le_of_eq hEV.symm) h

/-- Witness for C2: at E = 5 < V0 = 8 the decay constant takes the WKB
value, and at E = 10 ≥ V0 = 8 the model is classical with T = 1, κ = 0. -/
theorem useTunneling_formula_witness :
    (useTunneling 5 8 1.5 1).kappa = Real.sqrt ((8 - 5) / (0.0381 / 1)) ∧
    ((useTunneling 10 8 1.5 1).probability = 1 ∧
      (useTunneling 10 8 1.5 1).kappa = 0) :=
  ⟨((useTunneling_formula 5 8 1.5 1).2.2.1 (by norm_num)).1,
    (useTunneling_formula 10 8 1.5 1).2.1 (by norm_num)⟩

/-- C8: the transmission probability of both `useTunneling` and
`calculateTunnelingProbability` always lies in `[0, 1]`: the exponential is
clamped into range at computation time, for every real input. -/
theorem transmissionProbability_in_unit_interval (E V0 L m : ℝ) :
    (0 ≤ (useTunneling E V0 L m).probability ∧
      (useTunneling E V0 L m).probability ≤ 1) ∧
    (0 ≤ calculateTunnelingProbability E V0 L m ∧
      calculateTunnelingProbability E V0 L m ≤ 1) := by
  constructor <;>
  · by_cases h : E ≥ V0 <;>
      simp [useTunneling, calculateTunnelingProbability, h]

/-- Each statistics event preserves the aggregator invariant. -/
theorem statsInvariant_apply (s : TunnelingStats) (e : StatsEvent)
    (h : statsInvariant s) : statsInvariant (applyStatsEvent s e) := by
  obtain ⟨hsum, _⟩ := h
  cases e with
  | tunneled =>
    refine ⟨?_, ?_⟩ <;> simp [applyStatsEvent, handleParticleTunneled]
    omega
  | reflected =>
    refine ⟨?_, ?_⟩ <;> simp [applyStatsEvent, handleParticleReflected]
    omega
  | reset T =>
    refine ⟨?_, ?_⟩ <;> simp [applyStatsEvent, resetStats, createEmptyStats]

/-- The aggregator invariant holds in every state reachable from the empty
statistics. -/
theorem statsInvariant_run (evs : List StatsEvent) :
    statsInvariant (runStats evs) := by
  suffices h : ∀ s : TunnelingStats, statsInvariant s →
      statsInvariant (evs.foldl applyStatsEvent s) from
    h createEmptyStats ⟨rfl, by simp [createEmptyStats]⟩
  induction evs with
  | nil => exact fun s hs => hs
  | cons e es ih => exact fun s hs => ih _ (statsInvariant_apply s e hs)

/-- C1: after every sequence of recorded outcomes (and resets) the counters
satisfy `tunneled + reflected = totalParticles` and
`experimentalProbability = tunneled / totalParticles` (0 when the total is
0); in the reflected-increment path, the unchanged tunneled count is divided
by the newly incremented total, and in the tunneled path the incremented
count is divided by the incremented total. -/
theorem stats_aggregator_invariant (evs : List StatsEvent)
    (s : TunnelingStats) :
    statsInvariant (runStats evs) ∧
    ((handleParticleReflected s).tunneled = s.tunneled ∧
      (handleParticleReflected s).totalParticles = s.totalParticles + 1 ∧
      (handleParticleReflected s).experimentalProbability =
        (s.tunneled : ℝ) / ((s.totalParticles : ℝ) + 1)) ∧
    ((handleParticleTunneled s).tunneled = s.tunneled + 1 ∧
      (handleParticleTunneled s).totalParticles = s.totalParticles + 1 ∧
      (handleParticleTunneled s).experimentalProbability =
        ((s.tunneled : ℝ) + 1) / ((s.totalParticles : ℝ) + 1)) := by
  refine ⟨statsInvariant_run evs, ⟨rfl, rfl, ?_⟩, ⟨rfl, rfl, ?_⟩⟩ <;>
    simp [handleParticleReflected, handleParticleTunneled]

/-- C10: in the non-classical regime (`E < V0`, positive mass, nonnegative
width) the square of the evanescent decay factor at the far barrier edge
equals the transmission probability, `getEvanescentDecay(1)² = probability`,
the clamp being the identity there; in the classical regime both equal 1. -/
theorem evanescent_decay_squared (E V0 L m : ℝ) :
    (E < V0 → 0 < m → 0 ≤ L →
      getEvanescentDecay E V0 L m 1 ^ 2 =
        (useTunneling E V0 L m).probability) ∧
    (E ≥ V0 → getEvanescentDecay E V0 L m 1 = 1 ∧
      (useTunneling E V0 L m).probability = 1) := by
  constructor
  · intro hEV hm hL
    have hnc : ¬ E ≥ V0 := not_le.mpr hEV
    have harg : (0:ℝ) < (V0 - E) / (0.0381 / m) :=
      div_pos (sub_pos.mpr hEV) (div_pos (by norm_num) hm)
    have hk : 0 < Real.sqrt ((V0 - E) / (0.0381 / m)) := Real.sqrt_pos.mpr harg
    have hdecay : getEvanescentDecay E V0 L m 1 =
        Real.exp (-Real.sqrt ((V0 - E) / (0.0381 / m)) * 1 * L) := by
      simp [getEvanescentDecay, useTunneling, hnc, hk.ne']
    have hprob : (useTunneling E V0 L m).probability =
        max 0 (min 1 (Real.exp (-2 * Real.sqrt ((V0 - E) / (0.0381 / m)) * L))) := by
      simp [useTunneling, hnc]
    have hexp1 : Real.exp (-2 * Real.sqrt ((V0 - E) / (0.0381 / m)) * L) ≤ 1 := by
      rw [Real.exp_le_one_iff]
      nlinarith
    rw [hdecay, hprob, min_eq_right hexp1, max_eq_right (Real.exp_pos _).le,
      sq, ← Real.exp_add]
    congr 1
    ring
  · intro h
    exact ⟨by simp [getEvanescentDecay, useTunneling, h],
      by simp [useTunneling, h]⟩

/-- Witness for C10 at the default parameters E = 5, V0 = 8, L = 1.5,
mass = 1. -/
theorem evanescent_decay_squared_witness :
    getEvanescentDecay 5 8 1.5 1 1 ^ 2 = (useTunneling 5 8 1.5 1).probability :=
  (evanescent_decay_squared 5 8 1.5 1).1 (by norm_num) (by norm_num)
    (by norm_num)

/-- C4: when the (E, V0, L) triple changes, the statistics reset to zero
counters carrying the current theoretical probability and every in-flight
particle is discarded; when the triple is unchanged (an intensity-only
change), statistics and particles are untouched; and a reset state has all
counters 0 with `tunnelingProbability` the supplied model value. -/
theorem params_change_resets (prev next : TunnelingParams)
    (stats : TunnelingStats) (particles : List Particle) :
    ((prev.particleEnergy ≠ next.particleEnergy ∨
        prev.barrierHeight ≠ next.barrierHeight ∨
        prev.barrierWidth ≠ next.barrierWidth) →
      onParamsChange prev next stats particles =
        (resetStats (calculateTunnelingProbability next.particleEnergy
          next.barrierHeight next.barrierWidth 1), [])) ∧
    (prev.particleEnergy = next.particleEnergy →
      prev.barrierHeight = next.barrierHeight →
      prev.barrierWidth = next.barrierWidth →
      onParamsChange prev next stats particles = (stats, particles)) ∧
    (∀ T : ℝ, (resetStats T).totalParticles = 0 ∧
      (resetStats T).tunneled = 0 ∧ (resetStats T).reflected = 0 ∧
      (resetStats T).tunnelingProbability = T) := by
  refine ⟨fun h => ?_, fun h1 h2 h3 => ?_, fun T => ⟨rfl, rfl, rfl, rfl⟩⟩
  · simp only [onParamsChange]
    rw [if_pos h, if_pos h]
  · simp only [onParamsChange]
    rw [if_neg, if_neg] <;> simp [h1, h2, h3]

/-- Witness for C4: an energy change from 5 to 6 eV resets the statistics
and discards the particle list. -/
theorem params_change_resets_witness :
    onParamsChange ⟨5, 8, 1.5, 25⟩ ⟨6, 8, 1.5, 25⟩ createEmptyStats
        [probeParticle] =
      (resetStats (calculateTunnelingProbability 6 8 1.5 1), []) :=
  (params_change_resets ⟨5, 8, 1.5, 25⟩ ⟨6, 8, 1.5, 25⟩ createEmptyStats
    [probeParticle]).1 (Or.inl (by norm_num))

/-- Counterexample to C3 as stated: at frame delta Δt = 2 the incident probe
particle advances by `speed × timeScale = 0.06`, not by
`speed × Δt × timeScale = 0.12` — the motion update ignores Δt. -/
theorem motion_delta_counterexample :
    (updateParticle testConfig 2 probeParticle).1.x ≠
      probeParticle.x + probeParticle.speed * 2 * testConfig.timeScale := by
  have h : (updateParticle testConfig 2 probeParticle).1.x =
      -5 + 0.06 * 1 := by
    simp only [updateParticle, testConfig, probeParticle,
      EngineConfig.barrierLeft]
    rw [if_neg (by norm_num)]
  rw [h]
  simp only [probeParticle, testConfig]
  norm_num

/-- C3 (amended): on each frame update an Incident or Transmitted particle's
position advances by `speed × timeScale` and an InBarrier particle's by
`0.7 × speed × timeScale`, independent of the frame delta Δt. -/
theorem motion_advance (cfg : EngineConfig) (delta : ℝ) (p : Particle) :
    ((p.phase = Phase.incident ∨ p.phase = Phase.transmitted) →
      (updateParticle cfg delta p).1.x = p.x + p.speed * cfg.timeScale) ∧
    (p.phase = Phase.barrier →
      (updateParticle cfg delta p).1.x =
        p.x + p.speed * cfg.timeScale * 0.7) := by
  obtain ⟨x, phase, w, speed, hfd, ht, o⟩ := p
  cases phase <;> simp [updateParticle] <;> split_ifs <;> simp

/-- Witness for C3 (amended) at the probe particle and Δt = 2. -/
theorem motion_advance_witness :
    (updateParticle testConfig 2 probeParticle).1.x =
      probeParticle.x + probeParticle.speed * testConfig.timeScale :=
  (motion_advance testConfig 2 probeParticle).1 (Or.inl rfl)

/-- The frame update never rewrites a particle's committed outcome. -/
theorem updateParticle_willTunnel (cfg : EngineConfig) (d : ℝ) (p : Particle) :
    (updateParticle cfg d p).1.willTunnel = p.willTunnel := by
  obtain ⟨x, phase, w, speed, hfd, ht, o⟩ := p
  cases phase <;> simp [updateParticle] <;> split_ifs <;> rfl

/-- Every frame update follows the per-step phase relation. -/
theorem updateParticle_phaseStepOK (cfg : EngineConfig) (d : ℝ) (p : Particle) :
    phaseStepOK p.phase (updateParticle cfg d p).1.phase := by
  obtain ⟨x, phase, w, speed, hfd, ht, o⟩ := p
  cases phase <;> simp [updateParticle] <;> split_ifs <;> simp [phaseStepOK]

/-- A particle incident after an update was incident before it. -/
theorem updateParticle_incident_of (cfg : EngineConfig) (d : ℝ) (p : Particle)
    (h : (updateParticle cfg d p).1.phase = Phase.incident) :
    p.phase = Phase.incident := by
  obtain ⟨x, phase, w, speed, hfd, ht, o⟩ := p
  cases phase <;> revert h <;> simp [updateParticle] <;> split_ifs <;> simp

/-- The hit-flash flag is never cleared by a frame update. -/
theorem updateParticle_hitFlashDone_mono (cfg : EngineConfig) (d : ℝ)
    (p : Particle) (h : p.hitFlashDone = true) :
    (updateParticle cfg d p).1.hitFlashDone = true := by
  obtain ⟨x, phase, w, speed, hfd, ht, o⟩ := p
  cases phase <;> simp_all [updateParticle] <;> split_ifs <;> simp_all

/-- The reflected callback fires exactly on the step in which an incident
particle with a committed non-tunneling outcome reaches the barrier edge. -/
theorem updateParticle_reflectedFired_iff (cfg : EngineConfig) (d : ℝ)
    (p : Particle) :
    (updateParticle cfg d p).2.reflectedFired = true ↔
      (p.phase = Phase.incident ∧ p.willTunnel = false ∧
        cfg.barrierLeft ≤ p.x + p.speed * cfg.timeScale) := by
  obtain ⟨x, phase, w, speed, hfd, ht, o⟩ := p
  cases phase <;> simp [updateParticle, FrameEvents.none] <;> split_ifs <;>
    simp_all

/-- The tunneled callback fires exactly on the step in which a transmitted
particle whose hit flash has not yet run reaches the detector boundary. -/
theorem updateParticle_tunneledFired_iff (cfg : EngineConfig) (d : ℝ)
    (p : Particle) :
    (updateParticle cfg d p).2.tunneledFired = true ↔
      (p.phase = Phase.transmitted ∧ p.hitFlashDone = false ∧
        cfg.targetX ≤ p.x + p.speed * cfg.timeScale) := by
  obtain ⟨x, phase, w, speed, hfd, ht, o⟩ := p
  cases phase <;> simp [updateParticle, FrameEvents.none] <;> split_ifs <;>
    simp_all

/-- After a step that fires the reflected callback the particle is in the
reflected phase. -/
theorem updateParticle_reflectedFired_phase (cfg : EngineConfig) (d : ℝ)
    (p : Particle) (h : (updateParticle cfg d p).2.reflectedFired = true) :
    (updateParticle cfg d p).1.phase = Phase.reflected := by
  obtain ⟨x, phase, w, speed, hfd, ht, o⟩ := p
  cases phase <;> revert h <;> simp [updateParticle, FrameEvents.none] <;>
    split_ifs <;> simp_all

/-- After a step that fires the tunneled callback the hit-flash flag is set. -/
theorem updateParticle_tunneledFired_hfd (cfg : EngineConfig) (d : ℝ)
    (p : Particle) (h : (updateParticle cfg d p).2.tunneledFired = true) :
    (updateParticle cfg d p).1.hitFlashDone = true := by
  obtain ⟨x, phase, w, speed, hfd, ht, o⟩ := p
  cases phase <;> revert h <;> simp [updateParticle, FrameEvents.none] <;>
    split_ifs <;> simp_all

/-- A particle that is no longer incident emits no reflected event on any
future frame. -/
theorem trace_reflected_zero (cfg : EngineConfig) (ds : List ℝ)
    (p : Particle) (h : p.phase ≠ Phase.incident) :
    ((particleTrace cfg p ds).countP fun e => e.reflectedFired) = 0 := by
  induction ds generalizing p with
  | nil => rfl
  | cons d ds ih =>
    have h1 : (updateParticle cfg d p).2.reflectedFired = false := by
      rw [Bool.eq_false_iff]
      intro hf
      exact h ((updateParticle_reflectedFired_iff cfg d p).mp hf).1
    have h2 : (updateParticle cfg d p).1.phase ≠ Phase.incident :=
      fun hi => h (updateParticle_incident_of cfg d p hi)
    simp [particleTrace, List.countP_cons, h1, ih _ h2]

/-- Along any run a particle emits at most one reflected event. -/
theorem trace_reflected_le_one (cfg : EngineConfig) (ds : List ℝ)
    (p : Particle) :
    ((particleTrace cfg p ds).countP fun e => e.reflectedFired) ≤ 1 := by
  induction ds generalizing p with
  | nil => simp [particleTrace]
  | cons d ds ih =>
    by_cases hf : (updateParticle cfg d p).2.reflectedFired = true
    · have hpost := updateParticle_reflectedFired_phase cfg d p hf
      have h0 : ((particleTrace cfg (updateParticle cfg d p).1 ds).countP
          fun e => e.reflectedFired) = 0 :=
        trace_reflected_zero cfg ds _ (by rw [hpost]; simp)
      simp [particleTrace, List.countP_cons, hf, h0]
    · simp only [particleTrace, List.countP_cons, Bool.eq_false_iff] at hf ⊢
      simp [hf]
      exact ih _

/-- A particle whose hit flash already ran emits no tunneled event on any
future frame. -/
theorem trace_tunneled_zero (cfg : EngineConfig) (ds : List ℝ)
    (p : Particle) (h : p.hitFlashDone = true) :
    ((particleTrace cfg p ds).countP fun e => e.tunneledFired) = 0 := by
  induction ds generalizing p with
  | nil => rfl
  | cons d ds ih =>
    have h1 : (updateParticle cfg d p).2.tunneledFired = false := by
      rw [Bool.eq_false_iff]
      intro hf
      have := ((updateParticle_tunneledFired_iff cfg d p).mp hf).2.1
      rw [h] at this
      simp at this
    have h2 := updateParticle_hitFlashDone_mono cfg d p h
    simp [particleTrace, List.countP_cons, h1, ih _ h2]

/-- Along any run a particle emits at most one tunneled event. -/
theorem trace_tunneled_le_one (cfg : EngineConfig) (ds : List ℝ)
    (p : Particle) :
    ((particleTrace cfg p ds).countP fun e => e.tunneledFired) ≤ 1 := by
  induction ds generalizing p with
  | nil => simp [particleTrace]
  | cons d ds ih =>
    by_cases hf : (updateParticle cfg d p).2.tunneledFired = true
    · have hpost := updateParticle_tunneledFired_hfd cfg d p hf
      have h0 : ((particleTrace cfg (updateParticle cfg d p).1 ds).countP
          fun e => e.tunneledFired) = 0 :=
        trace_tunneled_zero cfg ds _ hpost
      simp [particleTrace, List.countP_cons, hf, h0]
    · simp only [particleTrace, List.countP_cons, Bool.eq_false_iff] at hf ⊢
      simp [hf]
      exact ih _

/-- A run of frame updates never rewrites the outcome committed at spawn. -/
theorem runParticleState_willTunnel (cfg : EngineConfig) (ds : List ℝ)
    (p : Particle) : (runParticleState cfg p ds).willTunnel = p.willTunnel := by
  induction ds generalizing p with
  | nil => rfl
  | cons d ds ih =>
    simp only [runParticleState, List.foldl_cons] at ih ⊢
    exact (ih _).trans (updateParticle_willTunnel cfg d p)

/-- C6: every particle phase change follows the monotone order Incident →
{InBarrier, Reflected} → (InBarrier →) Transmitted with no backward edges;
the branch at the barrier-entry boundary is InBarrier iff `willTunnel` and
Reflected iff not; and `willTunnel`, drawn at spawn, is preserved by every
frame update and every run of frame updates, whatever the parameters. -/
theorem phase_monotone_outcome_committed (cfg : EngineConfig) (delta : ℝ)
    (p : Particle) (ds : List ℝ) :
    phaseStepOK p.phase (updateParticle cfg delta p).1.phase ∧
    (updateParticle cfg delta p).1.willTunnel = p.willTunnel ∧
    (runParticleState cfg p ds).willTunnel = p.willTunnel ∧
    (p.phase = Phase.incident →
      cfg.barrierLeft ≤ p.x + p.speed * cfg.timeScale →
      (updateParticle cfg delta p).1.phase =
        (if p.willTunnel = true then Phase.barrier else Phase.reflected)) ∧
    (p.phase = Phase.incident →
      p.x + p.speed * cfg.timeScale < cfg.barrierLeft →
      (updateParticle cfg delta p).1.phase = Phase.incident) := by
  refine ⟨updateParticle_phaseStepOK cfg delta p,
    updateParticle_willTunnel cfg delta p,
    runParticleState_willTunnel cfg ds p, ?_, ?_⟩
  · intro hph hcross
    obtain ⟨x, phase, w, speed, hfd, ht, o⟩ := p
    cases phase <;> simp_all [updateParticle]
    split_ifs <;> simp_all
  · intro hph hcross
    obtain ⟨x, phase, w, speed, hfd, ht, o⟩ := p
    cases phase <;> simp_all [updateParticle]
    rw [if_neg (not_le.mpr hcross)]

/-- Witness for C6: the boundary particle crosses into the barrier phase
because its committed outcome is `willTunnel = true`. -/
theorem phase_monotone_outcome_committed_witness :
    (updateParticle testConfig 1 boundaryParticle).1.phase =
      (if boundaryParticle.willTunnel = true then Phase.barrier
        else Phase.reflected) :=
  (phase_monotone_outcome_committed testConfig 1 boundaryParticle []).2.2.2.1
    rfl (by norm_num [testConfig, boundaryParticle, EngineConfig.barrierLeft])

/-- C7: along any run a particle fires the reflected callback at most once
and the tunneled callback at most once; a step fires the reflected callback
exactly when an incident particle with committed outcome false reaches the
barrier edge, and the tunneled callback exactly when a transmitted particle
whose hit flash has not yet run first reaches the detector boundary; and a
transmitted particle is marked for removal only after its hit flash is done,
its flash timer has elapsed, and its fade-out has brought opacity to 0. -/
theorem callbacks_fire_once (cfg : EngineConfig) (delta : ℝ) (p : Particle)
    (ds : List ℝ) :
    ((particleTrace cfg p ds).countP fun e => e.reflectedFired) ≤ 1 ∧
    ((particleTrace cfg p ds).countP fun e => e.tunneledFired) ≤ 1 ∧
    ((updateParticle cfg delta p).2.reflectedFired = true ↔
      (p.phase = Phase.incident ∧ p.willTunnel = false ∧
        cfg.barrierLeft ≤ p.x + p.speed * cfg.timeScale)) ∧
    ((updateParticle cfg delta p).2.tunneledFired = true ↔
      (p.phase = Phase.transmitted ∧ p.hitFlashDone = false ∧
        cfg.targetX ≤ p.x + p.speed * cfg.timeScale)) ∧
    (p.phase = Phase.transmitted →
      (updateParticle cfg delta p).2.remove = true →
      (updateParticle cfg delta p).1.hitFlashDone = true ∧
      (updateParticle cfg delta p).1.opacity ≤ 0 ∧
      HIT_FLASH_DURATION < (updateParticle cfg delta p).1.hitTime) := by
  refine ⟨trace_reflected_le_one cfg ds p, trace_tunneled_le_one cfg ds p,
    updateParticle_reflectedFired_iff cfg delta p,
    updateParticle_tunneledFired_iff cfg delta p, ?_⟩
  intro hph hrem
  obtain ⟨x, phase, w, speed, hfd, ht, o⟩ := p
  cases phase <;> revert hrem <;>
    simp_all [updateParticle, FrameEvents.none]
  split_ifs <;> simp_all

/-- Witness for C7: the fading particle past the detector is removed with
its hit flash done, its timer elapsed and its opacity at or below zero. -/
theorem callbacks_fire_once_witness :
    (updateParticle testConfig 1 fadingParticle).1.hitFlashDone = true ∧
    (updateParticle testConfig 1 fadingParticle).1.opacity ≤ 0 ∧
    HIT_FLASH_DURATION < (updateParticle testConfig 1 fadingParticle).1.hitTime :=
  (callbacks_fire_once testConfig 1 fadingParticle []).2.2.2.2 rfl
    (by norm_num [updateParticle, testConfig, fadingParticle,
      HIT_FLASH_DURATION])

/-- Updating every particle and compacting out the removed ones never grows
the list. -/
theorem compact_length_le (cfg : EngineConfig) (delta : ℝ)
    (l : List Particle) :
    (((l.map (updateParticle cfg delta)).filter
      fun q => q.2.remove = false).map Prod.fst).length ≤ l.length := by
  rw [List.length_map]
  exact le_trans (List.length_filter_le _ _) (le_of_eq (List.length_map _ _))

/-- One frame keeps the live-particle count at or below the cap. -/
theorem engineFrame_cap (cfg : EngineConfig) (input : FrameInput)
    (st : EngineState) (h : st.particles.length ≤ MAX_PARTICLES) :
    (engineFrame cfg input st).particles.length ≤ MAX_PARTICLES := by
  have hspawn : ∀ d1 d2 : ℝ,
      (spawnParticle cfg d1 d2 st.particles).length ≤ MAX_PARTICLES := by
    intro d1 d2
    by_cases hc : st.particles.length ≥ MAX_PARTICLES
    · rw [spawnParticle, if_pos hc]
      exact h
    · rw [spawnParticle, if_neg hc]
      rw [List.length_append]
      simp only [List.length_cons, List.length_nil]
      omega
  by_cases hg : input.now - st.lastSpawn > 1000 / cfg.intensity
  · simp only [engineFrame, if_pos hg]
    exact le_trans (compact_length_le cfg input.delta _)
      (hspawn input.drawTunnel input.drawSpeed)
  · simp only [engineFrame, if_neg hg]
    exact le_trans (compact_length_le cfg input.delta _) h

/-- Every engine state reachable from the mount state respects the particle
cap. -/
theorem runEngine_cap (cfg : EngineConfig) (inputs : List FrameInput) :
    (runEngine cfg inputs).particles.length ≤ MAX_PARTICLES := by
  suffices h : ∀ st : EngineState, st.particles.length ≤ MAX_PARTICLES →
      (inputs.foldl (fun st input => engineFrame cfg input st)
        st).particles.length ≤ MAX_PARTICLES from
    h initialEngineState (by simp [initialEngineState])
  induction inputs with
  | nil => exact fun st hst => hst
  | cons i is ih => exact fun st hst => ih _ (engineFrame_cap cfg i st hst)

/-- C5: a frame without an elapsed spawn timer admits no particle and keeps
the timer; an elapsed timer stamps `lastSpawn := now` whether or not the
spawn is admitted (dropped spawns are not retried); a spawn attempt at the
cap of 80 is dropped, below the cap it adds exactly one particle; and every
reachable engine state keeps the live count at or below 80. -/
theorem spawn_gate_and_cap (cfg : EngineConfig) (inputs : List FrameInput)
    (input : FrameInput) (st : EngineState) (drawTunnel drawSpeed : ℝ)
    (ps : List Particle) :
    (runEngine cfg inputs).particles.length ≤ MAX_PARTICLES ∧
    (MAX_PARTICLES ≤ ps.length →
      spawnParticle cfg drawTunnel drawSpeed ps = ps) ∧
    (ps.length < MAX_PARTICLES →
      (spawnParticle cfg drawTunnel drawSpeed ps).length = ps.length + 1) ∧
    (¬ input.now - st.lastSpawn > 1000 / cfg.intensity →
      (engineFrame cfg input st).particles.length ≤ st.particles.length ∧
      (engineFrame cfg input st).lastSpawn = st.lastSpawn) ∧
    (input.now - st.lastSpawn > 1000 / cfg.intensity →
      (engineFrame cfg input st).lastSpawn = input.now) := by
  refine ⟨runEngine_cap cfg inputs, fun h => ?_, fun h => ?_,
    fun h => ⟨?_, ?_⟩, fun h => ?_⟩
  · rw [spawnParticle, if_pos h]
  · rw [spawnParticle, if_neg (not_le.mpr h)]
    simp
  · simp only [engineFrame, if_neg h]
    exact compact_length_le cfg input.delta _
  · simp only [engineFrame, if_neg h]
  · simp only [engineFrame, if_pos h]

/-- Witness for C5: below the cap, one spawn attempt with an elapsed timer
adds exactly one particle. -/
theorem spawn_gate_and_cap_witness :
    (spawnParticle testConfig 0.5 0.5 []).length =
      ([] : List Particle).length + 1 :=
  (spawn_gate_and_cap testConfig [] ⟨100, 0.016, 0.5, 0.5⟩
    initialEngineState 0.5 0.5 []).2.2.1 (by norm_num [MAX_PARTICLES])

/-- C9 (failing on the code): the wave overlay's time phase accumulator does
advance every frame (here from 0 to 3), but the memoized curves are not
recomputed when the physics parameters are unchanged, so the emitted points
still reflect the stale captured time 0 — and the evanescent sample at the
barrier edge genuinely differs between time 0 and time 3. -/
theorem waveViz_memo_stale :
    (waveVizFrame (5, 8, 1.5) 1
      (initialWaveVizState (5, 8, 1.5))).timeAccum = 3 ∧
    (waveVizFrame (5, 8, 1.5) 1
      (initialWaveVizState (5, 8, 1.5))).memoTime = 0 ∧
    evanescentY 5 8 1.5 0 0 (-0.75) ≠ evanescentY 5 8 1.5 0 3 (-0.75) := by
  refine ⟨by norm_num [waveVizFrame, initialWaveVizState],
    by norm_num [waveVizFrame, initialWaveVizState], ?_⟩
  have hsin3 : 0 < Real.sin 3 :=
    Real.sin_pos_of_pos_of_lt_pi (by norm_num)
      (by linarith [Real.pi_gt_three])
  have h0 : evanescentY 5 8 1.5 0 0 (-0.75) = 2.5 := by
    norm_num [evanescentY]
  have h3 : evanescentY 5 8 1.5 0 3 (-0.75) = 2.5 - 0.5 * Real.sin 3 := by
    norm_num [evanescentY, Real.sin_neg]
    ring
  rw [h0, h3]
  intro heq
  linarith

end

end PhysicsTutorial
